import Mathlib

/-!
Shallow embedding of the cytrans decision engine (src/ffprobe.rs,
src/transcode.rs, src/cytube_structs.rs): stream-fact parsing, the
codec/container compatibility model, and the plan builder `remux`,
together with theorems settling the specification claims.

Rust panics (`unwrap`/`expect` on absent data) are modelled by `Option`
or `Except` results; machine integers (`u16`, `u64`) are modelled as
`Nat` with explicit range checks where the source parses them.
-/

namespace Cytrans

/-- `TrackType` from src/ffprobe.rs (strum `EnumString`, snake_case). -/
inductive TrackType where
  | Video
  | Audio
  | Subtitle
deriving DecidableEq, Repr

/-- `Track` from src/ffprobe.rs.  `index` and `scanline_count` are `u16`
in the source, modelled as `Nat` (parsing enforces `< 65536`); the
`str4` language is modelled as `String`. -/
structure Track where
  index : Nat
  kind : TrackType
  codec : String
  scanline_count : Option Nat
  language : Option String
  title : Option String
deriving DecidableEq, Repr

/-- `FFprobeResult` from src/ffprobe.rs.  `bitrate` is `u64` in kbps. -/
structure FFprobeResult where
  tracks : List Track
  title : Option String
  duration : Float
  bitrate : Nat

/-- The strum-derived `FromStr` for `TrackType`: exact match against the
snake_case variant names (strum's default matching is case-sensitive). -/
def parse_track_type (s : String) : Option TrackType :=
  if s = "video" then some TrackType.Video
  else if s = "audio" then some TrackType.Audio
  else if s = "subtitle" then some TrackType.Subtitle
  else none

/-- Lower-casing a string character by character (structural model of
`str::to_lowercase` on ASCII); used only to state the specification's
case-insensitivity wording for claim C8. -/
def to_lower (s : String) : String :=
  String.mk (s.data.map Char.toLower)

/-- Case-insensitive variant of the track-type parse, used only to state
the specification's wording of claim C8. -/
def parse_track_type_ci (s : String) : Option TrackType :=
  parse_track_type (to_lower s)

/-- Rust `u16::from_str` as used by `v.parse::<u16>()`: an optional
leading `+`, then one or more ASCII digits, value below 2^16 (structural
model of the standard parser). -/
def parse_u16 (s : String) : Option Nat :=
  let digits := match s.data with
    | '+' :: rest => rest
    | l => l
  if digits = [] then none
  else if digits.all (fun c => c.isDigit) then
    let n := digits.foldl (fun acc c => acc * 10 + (c.toNat - 48)) 0
    if n < 65536 then some n else none
  else none

/-- Splitting a character list at the first occurrence of `sep`
(structural model of `str::split_once` for a one-character pattern). -/
def split_once_chars (sep : Char) : List Char → Option (List Char × List Char)
  | [] => none
  | ch :: rest =>
    if ch = sep then some ([], rest)
    else match split_once_chars sep rest with
      | none => none
      | some (a, b) => some (ch :: a, b)

/-- Rust `str::split_once` at a one-character separator. -/
def split_once (s : String) (sep : Char) : Option (String × String) :=
  (split_once_chars sep s.data).map (fun p => (String.mk p.1, String.mk p.2))

/-- Splitting a character list at every occurrence of `sep` (structural
model of `str::split` for a one-character pattern; always non-empty). -/
def split_chars (sep : Char) : List Char → List (List Char)
  | [] => [[]]
  | ch :: rest =>
    if ch = sep then [] :: split_chars sep rest
    else match split_chars sep rest with
      | [] => [[ch]]
      | h :: t => (ch :: h) :: t

/-- `parse_ffmpeg_line` from src/ffprobe.rs: the record kind before the
first `|`, and the remaining raw `|`-separated tokens (the source splits
each token at `=` lazily; that per-token split happens in
`process_stream_tokens` below, preserving the source's laziness). -/
def parse_ffmpeg_line (line : String) : String × List String :=
  match (split_chars '|' line.data).map (fun l => String.mk l) with
  | [] => ("", [])
  | kind :: rest => (kind, rest)

/-- A parse failure of the stream-line loop in src/ffprobe.rs.  The
source panics: `expect("no index")` etc. after `dbg!(line)` (missing
mandatory field), or `unwrap()` on a failed numeric parse or on a token
with no `=`. -/
inductive ParseErr where
  | missingField (field : String) (line : String)
  | malformedInt (key : String) (value : String) (line : String)
  | malformedToken (token : String) (line : String)
deriving DecidableEq, Repr

/-- The mutable locals of the `"stream"` arm of `ffprobe`
(src/ffprobe.rs lines 76-81) before the final `expect` chain. -/
structure StreamAcc where
  kind : Option TrackType
  codec : Option String
  scanline_count : Option Nat
  language : Option String
  title : Option String
  index : Option Nat
deriving DecidableEq, Repr

/-- All-`None` initial state of the stream-line locals. -/
def init_acc : StreamAcc :=
  { kind := none, codec := none, scanline_count := none, language := none,
    title := none, index := none }

/-- The `for (k,v) in params` loop of the `"stream"` arm
(src/ffprobe.rs lines 82-97), processed left to right exactly as the
lazy iterator does: `Except.ok none` models `continue 'a` (line skipped
on an unparsable `codec_type`), `Except.error` models the panics on a
token without `=` or a malformed `u16`. -/
def process_stream_tokens (line : String) : List String → StreamAcc → Except ParseErr (Option StreamAcc)
  | [], acc => Except.ok (some acc)
  | tok :: rest, acc =>
    match split_once tok '=' with
    | none => Except.error (ParseErr.malformedToken tok line)
    | some (k, v) =>
      if k = "codec_type" then
        match parse_track_type v with
        | some tt => process_stream_tokens line rest { acc with kind := some tt }
        | none => Except.ok none
      else if k = "index" then
        match parse_u16 v with
        | some n => process_stream_tokens line rest { acc with index := some n }
        | none => Except.error (ParseErr.malformedInt k v line)
      else if k = "codec_name" then
        process_stream_tokens line rest { acc with codec := some v }
      else if k = "coded_height" then
        match parse_u16 v with
        | some n => process_stream_tokens line rest { acc with scanline_count := some n }
        | none => Except.error (ParseErr.malformedInt k v line)
      else if k = "tag:language" then
        process_stream_tokens line rest { acc with language := some v }
      else if k = "tag:title" then
        process_stream_tokens line rest { acc with title := some v }
      else
        process_stream_tokens line rest acc

/-- The `expect` chain closing the `"stream"` arm (src/ffprobe.rs lines
99-102): absence of `index`, `codec_type` or `codec_name` is fatal, in
that order, the panic naming the field while `dbg!` shows the line. -/
def finish_stream (line : String) (acc : StreamAcc) : Except ParseErr Track :=
  match acc.index with
  | none => Except.error (ParseErr.missingField "no index" line)
  | some index =>
    match acc.kind with
    | none => Except.error (ParseErr.missingField "no codec_type" line)
    | some kind =>
      match acc.codec with
      | none => Except.error (ParseErr.missingField "no codec_name" line)
      | some codec =>
        Except.ok { index := index, kind := kind, codec := codec,
                    scanline_count := acc.scanline_count,
                    language := acc.language, title := acc.title }

/-- Processing of one `"stream"` line of probe output given its raw
tokens: `ok none` when the line is skipped, `ok (some t)` when it yields
a track, `error` when the source would panic. -/
def process_stream (line : String) (params : List String) : Except ParseErr (Option Track) :=
  match process_stream_tokens line params init_acc with
  | Except.error e => Except.error e
  | Except.ok none => Except.ok none
  | Except.ok (some acc) =>
    match finish_stream line acc with
    | Except.error e => Except.error e
    | Except.ok t => Except.ok (some t)

/-- `BITMAP_SUBTITLE_CODECS` from src/transcode.rs lines 8-13. -/
def BITMAP_SUBTITLE_CODECS : List String :=
  ["dvb_subtitle", "dvd_subtitle", "hdmv_pgs_subtitle", "xsub"]

/-- `VideoContainer` from src/transcode.rs. -/
inductive VideoContainer where
  | MP4
  | WEBM
  | OGG
deriving DecidableEq, Repr

/-- `find_video_container` from src/transcode.rs lines 19-31. -/
def find_video_container (video_codec : String) : Option VideoContainer :=
  if video_codec = "av1" ∨ video_codec = "vp8" ∨ video_codec = "vp9" then
    some VideoContainer.WEBM
  else if video_codec = "h264" ∨ video_codec = "hevc" ∨ video_codec = "mpeg4" ∨
      video_codec = "mpeg2video" then
    some VideoContainer.MP4
  else if video_codec = "theora" then
    some VideoContainer.OGG
  else
    none

/-- `VideoContainer::get_acceptable_audio_codecs`, src/transcode.rs lines 34-41. -/
def VideoContainer.get_acceptable_audio_codecs : VideoContainer → List String
  | VideoContainer.MP4 => ["aac", "alac", "flac", "opus", "mp3"]
  | VideoContainer.WEBM => ["opus", "vorbis"]
  | VideoContainer.OGG => ["opus", "vorbis", "flac"]

/-- `VideoContainer::preferred_audio_encoder`, src/transcode.rs lines 42-48. -/
def VideoContainer.preferred_audio_encoder : VideoContainer → String
  | VideoContainer.MP4 => "aac"
  | VideoContainer.WEBM => "libopus"
  | VideoContainer.OGG => "libopus"

/-- `VideoContainer::extension`, src/transcode.rs lines 49-56. -/
def VideoContainer.extension : VideoContainer → String
  | VideoContainer.MP4 => "mp4"
  | VideoContainer.WEBM => "webm"
  | VideoContainer.OGG => "ogv"

/-- `VideoContainer::mimetype`, src/transcode.rs lines 57-64. -/
def VideoContainer.mimetype : VideoContainer → String
  | VideoContainer.MP4 => "video/mp4"
  | VideoContainer.WEBM => "video/webm"
  | VideoContainer.OGG => "video/ogg"

/-- `AudioContainer` from src/transcode.rs lines 67-78 (PseudoM4A is a
renamed MP4 used to smuggle codecs past the platform's container check). -/
inductive AudioContainer where
  | M4A
  | OGG
  | PseudoM4A
deriving DecidableEq, Repr

/-- `find_audio_container` from src/transcode.rs lines 80-109. -/
def find_audio_container (audio_codec : String) : Option AudioContainer :=
  if audio_codec = "aac" ∨ audio_codec = "alac" ∨ audio_codec = "aac_latm" then
    some AudioContainer.M4A
  else if audio_codec = "opus" ∨ audio_codec = "vorbis" ∨ audio_codec = "flac" then
    some AudioContainer.OGG
  else if audio_codec = "mp3" then
    some AudioContainer.PseudoM4A
  else
    none

/-- `AudioContainer::extension`, src/transcode.rs lines 112-118. -/
def AudioContainer.extension : AudioContainer → String
  | AudioContainer.OGG => "ogg"
  | AudioContainer.M4A => "m4a"
  | AudioContainer.PseudoM4A => "m4a"

/-- `AudioContainer::mimetype`, src/transcode.rs lines 119-125. -/
def AudioContainer.mimetype : AudioContainer → String
  | AudioContainer.OGG => "audio/ogg"
  | AudioContainer.M4A => "audio/mp4"
  | AudioContainer.PseudoM4A => "audio/mp4"

/-- `strcat` from src/transcode.rs lines 128-134. -/
def strcat (first : String) (rest : List String) : String :=
  rest.foldl (fun s next => s ++ next) first

/-- Manifest `Source` from src/cytube_structs.rs (`quality` is `u16`,
`bitrate` is `u64`, both modelled as `Nat`). -/
structure Source where
  url : String
  content_type : String
  quality : Nat
  bitrate : Nat
deriving DecidableEq, Repr

/-- Manifest `TextTrack` from src/cytube_structs.rs. -/
structure CTTextTrack where
  url : String
  name : String
  content_type : String
deriving DecidableEq, Repr

/-- Manifest `AudioTrack` from src/cytube_structs.rs. -/
structure CTAudioTrack where
  url : String
  label : String
  language : String
  content_type : String
deriving DecidableEq, Repr

/-- `CytubeVideo` from src/cytube_structs.rs. -/
structure CytubeVideo where
  title : String
  duration : Float
  sources : List Source
  audio_tracks : List CTAudioTrack
  text_tracks : List CTTextTrack

/-- The two ffmpeg-command/manifest outputs of `remux`; the command is
the ordered ffmpeg argument list (after the program name). -/
structure RemuxOutput where
  args : List String
  cytube : CytubeVideo

/-- `build_language_string` from src/transcode.rs lines 286-294.  The
`LANGUAGES` code→name table lives in the `ffmpeg_languages` module,
which is not among the sources; it is passed as a lookup parameter. -/
def build_language_string (LANGUAGES : String → Option String) (language : String)
    (title : Option String) : String :=
  let s := (LANGUAGES language).getD language
  match title with
  | some t => s ++ " (" ++ t ++ ")"
  | none => s

/-- One audio-candidate score, src/transcode.rs lines 163-169: one point
when no container was resolved or the codec is acceptable in it, one
point when no language was preferred or the candidate's language equals
it. -/
def audio_score (video_container : Option VideoContainer)
    (preferred_language : Option String) (audio : Track) : Nat :=
  (if (match video_container with
       | none => true
       | some container => decide (audio.codec ∈ container.get_acceptable_audio_codecs)) then 1 else 0)
  + (if (match preferred_language with
         | none => true
         | some lang => decide (audio.language = some lang)) then 1 else 0)

/-- The primary-audio selection fold, src/transcode.rs lines 160-174:
running best seeded with the first track and score 0, replaced only on a
strictly greater score. -/
def select_audio (video_container : Option VideoContainer)
    (preferred_language : Option String) (audio_tracks : List Track) : Option Track :=
  (audio_tracks.foldl
    (fun st audio =>
      let score := audio_score video_container preferred_language audio
      if st.2 < score then (some audio, score) else st)
    (audio_tracks.head?, 0)).1

/-- Stable partition of the probe's tracks by kind, src/transcode.rs
lines 137-147. -/
def tracks_of_kind (k : TrackType) (tracks : List Track) : List Track :=
  tracks.filter (fun t => decide (t.kind = k))

/-- The body of the secondary-audio loop, src/transcode.rs lines
220-246: skip the muxed track, drop codecs with no audio container,
otherwise emit the copy arguments and the manifest `AudioTrack`.
`FF2CT` and `LANGUAGES` are the tables of the absent `ffmpeg_languages`
module, passed as parameters. -/
def secondary_audio_step (outputdir : String) ( url_prefix : String)
    (FF2CT : String → Option String) (LANGUAGES : String → Option String)
    (primary_index : Nat) (audio_track : Track) : List String × List CTAudioTrack :=
  if audio_track.index = primary_index then ([], [])
  else
    match find_audio_container audio_track.codec with
    | none => ([], [])
    | some container =>
      let language := audio_track.language.getD "unknown"
      let filename := "audio_" ++ toString audio_track.index ++ "_" ++ language
        ++ "." ++ container.extension
      (["-map", "0:" ++ toString audio_track.index, "-c", "copy",
        outputdir ++ "/" ++ filename],
       [{ url := strcat url_prefix [filename],
          label := build_language_string LANGUAGES language audio_track.title,
          language := (FF2CT language).getD language,
          content_type := container.mimetype }])

/-- The body of the subtitle loop, src/transcode.rs lines 251-274:
bitmap codecs are skipped, the rest become a WebVTT conversion mapping
and a manifest `TextTrack`. -/
def subtitle_step (outputdir : String) ( url_prefix : String)
    (LANGUAGES : String → Option String) (sub_track : Track) :
    List String × List CTTextTrack :=
  if sub_track.codec ∈ BITMAP_SUBTITLE_CODECS then ([], [])
  else
    let lang := match sub_track.language with
      | some x => x
      | none => "unknown"
    let filename := "sub_" ++ toString sub_track.index ++ "_" ++ lang ++ ".vtt"
    let language_string := match sub_track.language with
      | some x => build_language_string LANGUAGES x sub_track.title
      | none => sub_track.title.getD "Unknown"
    (["-map", "0:" ++ toString sub_track.index, outputdir ++ "/" ++ filename],
     [{ url := strcat url_prefix [filename],
        name := language_string,
        content_type := "text/vtt" }])

/-- The primary-source block of `remux`, src/transcode.rs lines 158-249:
pick the first video track, score-select the primary audio track, decide
copy vs. encode, emit the primary output and the secondary audio
outputs.  `none` models the `video.scanline_count.unwrap()` panic; an
absent video or audio track contributes nothing (`some ([], [], [])`). -/
def remux_primary (outputdir : String) ( url_prefix : String)
    (preferred_language : Option String) (FF2CT : String → Option String)
    (LANGUAGES : String → Option String) (bitrate : Nat)
    (video_tracks audio_tracks : List Track) :
    Option (List String × List Source × List CTAudioTrack) :=
  match video_tracks.head? with
  | none => some ([], [], [])
  | some video =>
    let video_container := find_video_container video.codec
    match select_audio video_container preferred_language audio_tracks with
    | none => some ([], [], [])
    | some audio =>
      let mapArgs := ["-map", "0:" ++ toString video.index,
                      "-map", "0:" ++ toString audio.index]
      let secondary := audio_tracks.map
        (secondary_audio_step outputdir url_prefix FF2CT LANGUAGES audio.index)
      let secArgs := (secondary.map Prod.fst).flatten
      let secTracks := (secondary.map Prod.snd).flatten
      match video_container with
      | some video_container =>
        match video.scanline_count with
        | none => none
        | some q =>
          let audioArgs :=
            if audio.codec ∈ video_container.get_acceptable_audio_codecs then
              "copy" ::
                (if video_container = VideoContainer.MP4 ∧ audio.codec = "flac" then
                  ["-strict", "experimental"]
                else [])
            else
              [video_container.preferred_audio_encoder, "-ac", "2"]
          let filename := "main." ++ video_container.extension
          some (mapArgs ++ ["-c:v", "copy", "-c:a"] ++ audioArgs
                  ++ [outputdir ++ "/" ++ filename] ++ secArgs,
                [{ url := strcat url_prefix [filename],
                   content_type := video_container.mimetype,
                   quality := q,
                   bitrate := bitrate }],
                secTracks)
      | none =>
        match video.scanline_count with
        | none => none
        | some q =>
          some (mapArgs ++ ["-c:v", "libstvav1", "-c:a", "libopus", "-ac", "2",
                  outputdir ++ "/" ++ "main.webm"] ++ secArgs,
                [{ url := strcat url_prefix ["main.webm"],
                   content_type := "video/webm",
                   quality := q,
                   bitrate := bitrate }],
                secTracks)

/-- `remux` from src/transcode.rs lines 136-284.  `media_stem` stands
for `media_file.file_stem().unwrap().to_string_lossy()`; path joining is
modelled as `outputdir ++ "/" ++ filename` (all joined names are plain
relative file names).  The result is `none` exactly where the source
panics: `video.scanline_count.unwrap()` on a primary track without a
coded height. -/
def remux (media_file : String) (media_stem : String) (ffprobe : FFprobeResult)
    (outputdir : String) ( url_prefix : String) (preferred_language : Option String)
    (FF2CT : String → Option String) (LANGUAGES : String → Option String) :
    Option RemuxOutput :=
  let subtitle_tracks := tracks_of_kind TrackType.Subtitle ffprobe.tracks
  let audio_tracks := tracks_of_kind TrackType.Audio ffprobe.tracks
  let video_tracks := tracks_of_kind TrackType.Video ffprobe.tracks
  let base := ["-hide_banner", "-strict", "-2", "-i", media_file]
  match remux_primary outputdir url_prefix preferred_language FF2CT LANGUAGES
      ffprobe.bitrate video_tracks audio_tracks with
  | none => none
  | some (pargs, srcs, atracks) =>
    let subParts := subtitle_tracks.map (subtitle_step outputdir url_prefix LANGUAGES)
    let subArgs := (subParts.map Prod.fst).flatten
    let subTracks := (subParts.map Prod.snd).flatten
    some { args := base ++ pargs ++ subArgs,
           cytube := { title := ffprobe.title.getD media_stem,
                       duration := ffprobe.duration,
                       sources := srcs,
                       audio_tracks := atracks,
                       text_tracks := subTracks } }

/-- The audio-selection fold step of src/transcode.rs lines 162-174 (the
lambda inside `select_audio`, named for the proofs). -/
def select_step (f : Track → Nat) (st : Option Track × Nat) (audio : Track) :
    Option Track × Nat :=
  if st.2 < f audio then (some audio, f audio) else st

/-- Spec-side (claim C1 wording): the maximal score over a candidate
list. -/
def max_score (f : Track → Nat) (l : List Track) : Nat :=
  l.foldl (fun m a => max m (f a)) 0

/-- Spec-side (claim C1 wording): the first candidate in probe order
whose score attains the maximal score. -/
def first_max_by (f : Track → Nat) (l : List Track) : Option Track :=
  l.find? (fun a => f a == max_score f l)

/-- Running maximum of scores, seeded at `h` (proof helper). -/
def run_max (f : Track → Nat) (h : Nat) (l : List Track) : Nat :=
  l.foldl (fun m a => max m (f a)) h

lemma run_max_cons (f : Track → Nat) (h : Nat) (a : Track) (l : List Track) :
    run_max f h (a :: l) = run_max f (max h (f a)) l := rfl

lemma le_run_max (f : Track → Nat) (h : Nat) (l : List Track) : h ≤ run_max f h l := by
  induction l generalizing h with
  | nil => simp [run_max]
  | cons a l ih =>
    rw [run_max_cons]
    exact le_trans (Nat.le_max_left h (f a)) (ih (max h (f a)))

lemma head_le_run_max (f : Track → Nat) (h : Nat) (a : Track) (l : List Track) :
    f a ≤ run_max f h (a :: l) := by
  rw [run_max_cons]
  exact le_trans (Nat.le_max_right h (f a)) (le_run_max f (max h (f a)) l)

/-- The running-best fold kept by `select_audio` returns the first
candidate that strictly exceeds every earlier score, i.e. the first
maximal-scoring candidate once the maximum exceeds the seed. -/
lemma foldl_select_eq (f : Track → Nat) (l : List Track) (c : Option Track) (h : Nat) :
    (l.foldl (select_step f) (c, h)).1 =
      if h < run_max f h l then l.find? (fun a => f a == run_max f h l) else c := by
  induction l generalizing c h with
  | nil => simp [run_max]
  | cons a l ih =>
    rw [List.foldl_cons, run_max_cons]
    by_cases hc : h < f a
    · rw [show select_step f (c, h) a = (some a, f a) from by simp [select_step, hc]]
      rw [ih (some a) (f a), Nat.max_eq_right hc.le]
      have hM : h < run_max f (f a) l :=
        lt_of_lt_of_le hc (le_run_max f (f a) l)
      rw [if_pos hM]
      by_cases hfa : f a < run_max f (f a) l
      · rw [if_pos hfa]
        refine (List.find?_cons_of_neg _ ?_).symm
        simp [Nat.ne_of_lt hfa]
      · rw [if_neg hfa]
        have heq : f a = run_max f (f a) l :=
          le_antisymm (le_run_max f (f a) l) (Nat.le_of_not_lt hfa)
        refine (List.find?_cons_of_pos _ ?_).symm
        simp [heq.symm]
    · rw [show select_step f (c, h) a = (c, h) from by simp [select_step, hc]]
      rw [ih c h, Nat.max_eq_left (Nat.le_of_not_lt hc)]
      by_cases hM : h < run_max f h l
      · rw [if_pos hM, if_pos hM]
        have hne : f a ≠ run_max f h l :=
          Nat.ne_of_lt (lt_of_le_of_lt (Nat.le_of_not_lt hc) hM)
        refine (List.find?_cons_of_neg _ ?_).symm
        simp [hne]
      · rw [if_neg hM, if_neg hM]

lemma select_audio_nil (vc : Option VideoContainer) (pl : Option String) :
    select_audio vc pl [] = none := rfl

/-- `remux` in terms of its primary block: base arguments, primary and
secondary-audio output, then the subtitle conversions. -/
lemma remux_of_primary (media_file media_stem : String) (ffprobe : FFprobeResult)
    (outputdir : String) ( url_prefix : String) (preferred_language : Option String)
    (FF2CT LANGUAGES : String → Option String)
    (pargs : List String) (srcs : List Source) (atracks : List CTAudioTrack)
    (hp : remux_primary outputdir url_prefix preferred_language FF2CT LANGUAGES
        ffprobe.bitrate (tracks_of_kind TrackType.Video ffprobe.tracks)
        (tracks_of_kind TrackType.Audio ffprobe.tracks) = some (pargs, srcs, atracks)) :
    remux media_file media_stem ffprobe outputdir url_prefix preferred_language
        FF2CT LANGUAGES
      = some { args := ["-hide_banner", "-strict", "-2", "-i", media_file] ++ pargs
                 ++ (((tracks_of_kind TrackType.Subtitle ffprobe.tracks).map
                       (subtitle_step outputdir url_prefix LANGUAGES)).map Prod.fst).flatten,
               cytube := { title := ffprobe.title.getD media_stem,
                           duration := ffprobe.duration,
                           sources := srcs,
                           audio_tracks := atracks,
                           text_tracks := (((tracks_of_kind TrackType.Subtitle ffprobe.tracks).map
                               (subtitle_step outputdir url_prefix LANGUAGES)).map
                               Prod.snd).flatten } } := by
  simp only [remux, hp]

/-- `remux` fails exactly when its primary block does. -/
lemma remux_none_of_primary_none (media_file media_stem : String) (ffprobe : FFprobeResult)
    (outputdir : String) ( url_prefix : String) (preferred_language : Option String)
    (FF2CT LANGUAGES : String → Option String)
    (hp : remux_primary outputdir url_prefix preferred_language FF2CT LANGUAGES
        ffprobe.bitrate (tracks_of_kind TrackType.Video ffprobe.tracks)
        (tracks_of_kind TrackType.Audio ffprobe.tracks) = none) :
    remux media_file media_stem ffprobe outputdir url_prefix preferred_language
        FF2CT LANGUAGES = none := by
  simp only [remux, hp]

lemma remux_primary_no_video (outputdir : String) ( url_prefix : String)
    (preferred_language : Option String) (FF2CT LANGUAGES : String → Option String)
    (b : Nat) (video_tracks audio_tracks : List Track)
    (hv : video_tracks.head? = none) :
    remux_primary outputdir url_prefix preferred_language FF2CT LANGUAGES b
      video_tracks audio_tracks = some ([], [], []) := by
  simp only [remux_primary, hv]

lemma remux_primary_no_audio (outputdir : String) ( url_prefix : String)
    (preferred_language : Option String) (FF2CT LANGUAGES : String → Option String)
    (b : Nat) (video_tracks audio_tracks : List Track) (video : Track)
    (hv : video_tracks.head? = some video)
    (hsel : select_audio (find_video_container video.codec) preferred_language
        audio_tracks = none) :
    remux_primary outputdir url_prefix preferred_language FF2CT LANGUAGES b
      video_tracks audio_tracks = some ([], [], []) := by
  simp only [remux_primary, hv, hsel]

/-- The copy branch of the primary block (video codec resolves to a
container). -/
lemma remux_primary_container (outputdir : String) ( url_prefix : String)
    (preferred_language : Option String) (FF2CT LANGUAGES : String → Option String)
    (b : Nat) (video_tracks audio_tracks : List Track) (video audio : Track)
    (vc : VideoContainer) (q : Nat)
    (hv : video_tracks.head? = some video)
    (hvc : find_video_container video.codec = some vc)
    (hsel : select_audio (some vc) preferred_language audio_tracks = some audio)
    (hq : video.scanline_count = some q) :
    remux_primary outputdir url_prefix preferred_language FF2CT LANGUAGES b
        video_tracks audio_tracks
      = some (["-map", "0:" ++ toString video.index, "-map", "0:" ++ toString audio.index]
                ++ ["-c:v", "copy", "-c:a"]
                ++ (if audio.codec ∈ vc.get_acceptable_audio_codecs then
                      "copy" :: (if vc = VideoContainer.MP4 ∧ audio.codec = "flac" then
                        ["-strict", "experimental"]
                      else [])
                    else [vc.preferred_audio_encoder, "-ac", "2"])
                ++ [outputdir ++ "/" ++ ("main." ++ vc.extension)]
                ++ ((audio_tracks.map (secondary_audio_step outputdir url_prefix FF2CT
                      LANGUAGES audio.index)).map Prod.fst).flatten,
              [{ url := strcat url_prefix ["main." ++ vc.extension],
                 content_type := vc.mimetype, quality := q, bitrate := b }],
              ((audio_tracks.map (secondary_audio_step outputdir url_prefix FF2CT
                LANGUAGES audio.index)).map Prod.snd).flatten) := by
  simp only [remux_primary, hv, hvc, hsel, hq]

/-- The fallback branch of the primary block (no container for the
video codec). -/
lemma remux_primary_fallback (outputdir : String) ( url_prefix : String)
    (preferred_language : Option String) (FF2CT LANGUAGES : String → Option String)
    (b : Nat) (video_tracks audio_tracks : List Track) (video audio : Track) (q : Nat)
    (hv : video_tracks.head? = some video)
    (hvc : find_video_container video.codec = none)
    (hsel : select_audio none preferred_language audio_tracks = some audio)
    (hq : video.scanline_count = some q) :
    remux_primary outputdir url_prefix preferred_language FF2CT LANGUAGES b
        video_tracks audio_tracks
      = some (["-map", "0:" ++ toString video.index, "-map", "0:" ++ toString audio.index]
                ++ ["-c:v", "libstvav1", "-c:a", "libopus", "-ac", "2",
                    outputdir ++ "/" ++ "main.webm"]
                ++ ((audio_tracks.map (secondary_audio_step outputdir url_prefix FF2CT
                      LANGUAGES audio.index)).map Prod.fst).flatten,
              [{ url := strcat url_prefix ["main.webm"],
                 content_type := "video/webm", quality := q, bitrate := b }],
              ((audio_tracks.map (secondary_audio_step outputdir url_prefix FF2CT
                LANGUAGES audio.index)).map Prod.snd).flatten) := by
  simp only [remux_primary, hv, hvc, hsel, hq]

/-- The primary block panics (`scanline_count.unwrap()`) when the chosen
video track has no coded height and an audio track was chosen. -/
lemma remux_primary_panic (outputdir : String) ( url_prefix : String)
    (preferred_language : Option String) (FF2CT LANGUAGES : String → Option String)
    (b : Nat) (video_tracks audio_tracks : List Track) (video audio : Track)
    (hv : video_tracks.head? = some video)
    (hsel : select_audio (find_video_container video.codec) preferred_language
        audio_tracks = some audio)
    (hq : video.scanline_count = none) :
    remux_primary outputdir url_prefix preferred_language FF2CT LANGUAGES b
      video_tracks audio_tracks = none := by
  simp only [remux_primary, hv, hsel, hq]
  cases find_video_container video.codec <;> rfl

/-- A member of `tracks_of_kind` is a member of the original list of the
given kind, and conversely. -/
lemma mem_tracks_of_kind {t : Track} {k : TrackType} {l : List Track} :
    t ∈ tracks_of_kind k l ↔ t ∈ l ∧ t.kind = k := by
  simp [tracks_of_kind]

/-- The manifest `AudioTrack` entries of the secondary-audio loop: one
entry per audio track other than the muxed one whose codec maps to an
`AudioContainer`, in order. -/
lemma secondary_tracks_eq (outputdir : String) ( url_prefix : String)
    (FF2CT LANGUAGES : String → Option String) (pi : Nat) (l : List Track) :
    ((l.map (secondary_audio_step outputdir url_prefix FF2CT LANGUAGES pi)).map
        Prod.snd).flatten
      = l.filterMap (fun audio_track =>
          if audio_track.index = pi then none
          else (find_audio_container audio_track.codec).map (fun container =>
            { url := strcat url_prefix ["audio_" ++ toString audio_track.index ++ "_"
                ++ audio_track.language.getD "unknown" ++ "." ++ container.extension],
              label := build_language_string LANGUAGES (audio_track.language.getD "unknown")
                audio_track.title,
              language := (FF2CT (audio_track.language.getD "unknown")).getD
                (audio_track.language.getD "unknown"),
              content_type := container.mimetype })) := by
  induction l with
  | nil => rfl
  | cons t l ih =>
    simp at ih
    simp only [List.map_cons, List.flatten_cons, List.filterMap_cons]
    by_cases hpi : t.index = pi
    · simp [secondary_audio_step, hpi, ih]
    · cases hfc : find_audio_container t.codec with
      | none => simp [secondary_audio_step, hpi, hfc, ih]
      | some c => simp [secondary_audio_step, hpi, hfc, ih]

/-- The manifest `TextTrack` entries of the subtitle loop: one entry per
non-bitmap subtitle track, in order. -/
lemma subtitle_tracks_eq (outputdir : String) ( url_prefix : String)
    (LANGUAGES : String → Option String) (l : List Track) :
    ((l.map (subtitle_step outputdir url_prefix LANGUAGES)).map Prod.snd).flatten
      = (l.filter (fun t => decide (t.codec ∉ BITMAP_SUBTITLE_CODECS))).map
          (fun sub_track =>
            { url := strcat url_prefix ["sub_" ++ toString sub_track.index ++ "_"
                ++ (match sub_track.language with
                    | some x => x
                    | none => "unknown") ++ ".vtt"],
              name := match sub_track.language with
                | some x => build_language_string LANGUAGES x sub_track.title
                | none => sub_track.title.getD "Unknown",
              content_type := "text/vtt" }) := by
  induction l with
  | nil => rfl
  | cons t l ih =>
    simp at ih
    simp only [List.map_cons, List.flatten_cons, List.filter_cons]
    by_cases hb : t.codec ∈ BITMAP_SUBTITLE_CODECS
    · simp [subtitle_step, hb, ih]
    · simp [subtitle_step, hb, ih]

/-- The ffmpeg arguments of the subtitle loop: a mapping and destination
per non-bitmap subtitle track, in order. -/
lemma subtitle_args_eq (outputdir : String) ( url_prefix : String)
    (LANGUAGES : String → Option String) (l : List Track) :
    ((l.map (subtitle_step outputdir url_prefix LANGUAGES)).map Prod.fst).flatten
      = ((l.filter (fun t => decide (t.codec ∉ BITMAP_SUBTITLE_CODECS))).map
          (fun sub_track =>
            ["-map", "0:" ++ toString sub_track.index,
             outputdir ++ "/" ++ ("sub_" ++ toString sub_track.index ++ "_"
               ++ (match sub_track.language with
                   | some x => x
                   | none => "unknown") ++ ".vtt")])).flatten := by
  induction l with
  | nil => rfl
  | cons t l ih =>
    simp at ih
    simp only [List.map_cons, List.flatten_cons, List.filter_cons]
    by_cases hb : t.codec ∈ BITMAP_SUBTITLE_CODECS
    · simp [subtitle_step, hb, ih]
    · simp [subtitle_step, hb, ih]

/-- Each per-element output list is a contiguous segment of the
flattened loop output. -/
lemma flatten_map_infix {α β : Type} (g : α → List β) {l : List α} {t : α}
    (ht : t ∈ l) : g t <:+: (l.map g).flatten := by
  induction l with
  | nil => cases ht
  | cons a l ih =>
    rcases List.mem_cons.mp ht with rfl | hm
    · exact ⟨[], (l.map g).flatten, by simp⟩
    · obtain ⟨s, u, hsu⟩ := ih hm
      exact ⟨g a ++ s, u, by simp [List.flatten_cons, hsu, List.append_assoc]⟩

/-- C1: for every non-empty audio candidate list (the situation of a
probe with a video track and at least one audio track), the running-best
fold of src/transcode.rs lines 160-174 — one point for container
acceptance or no container, one point for language match or no
preference, replacement only on a strictly greater score — selects
exactly the first maximal-scoring candidate in probe order. -/
theorem claim_C1_first_max_selected (video_container : Option VideoContainer)
    (preferred_language : Option String) (audio_tracks : List Track)
    (hne : audio_tracks ≠ []) :
    select_audio video_container preferred_language audio_tracks
      = first_max_by (audio_score video_container preferred_language) audio_tracks := by
  obtain ⟨a, l, rfl⟩ := List.exists_cons_of_ne_nil hne
  have hsel : select_audio video_container preferred_language (a :: l)
      = ((a :: l).foldl (select_step (audio_score video_container preferred_language))
          (some a, 0)).1 := rfl
  rw [hsel, foldl_select_eq]
  by_cases h0 : 0 < run_max (audio_score video_container preferred_language) 0 (a :: l)
  · rw [if_pos h0]
    rfl
  · rw [if_neg h0]
    have hM : run_max (audio_score video_container preferred_language) 0 (a :: l) = 0 :=
      Nat.le_zero.mp (Nat.le_of_not_lt h0)
    have hms : max_score (audio_score video_container preferred_language) (a :: l) = 0 := hM
    have hfa : audio_score video_container preferred_language a = 0 :=
      Nat.le_zero.mp (hM ▸ head_le_run_max _ 0 a l)
    have : first_max_by (audio_score video_container preferred_language) (a :: l) = some a := by
      unfold first_max_by
      refine List.find?_cons_of_pos _ ?_
      simp [hms, hfa]
    exact this.symm

/-- Witness for C1: two candidates, preferred language "eng": the first
(codec accepted, wrong language) and the second (codec rejected, right
language) tie at score 1, and the first is the one selected. -/
theorem claim_C1_first_max_selected_witness :
    select_audio (some VideoContainer.MP4) (some "eng")
        [⟨1, TrackType.Audio, "aac", none, some "fre", none⟩,
         ⟨2, TrackType.Audio, "vorbis", none, some "eng", none⟩]
      = first_max_by (audio_score (some VideoContainer.MP4) (some "eng"))
        [⟨1, TrackType.Audio, "aac", none, some "fre", none⟩,
         ⟨2, TrackType.Audio, "vorbis", none, some "eng", none⟩] :=
  claim_C1_first_max_selected (some VideoContainer.MP4) (some "eng") _ (by simp)

/-- C7: the video-codec→container table is WEBM for av1/vp8/vp9, MP4 for
h264/hevc/mpeg4/mpeg2video, OGG for theora, and no container for
anything else; and when no container resolves, the plan falls back to a
re-encode whose Source has destination `main.webm` and MIME
`video/webm`. -/
theorem claim_C7_container_table_and_fallback :
    (∀ c, c ∈ ["av1", "vp8", "vp9"] → find_video_container c = some VideoContainer.WEBM)
  ∧ (∀ c, c ∈ ["h264", "hevc", "mpeg4", "mpeg2video"] →
      find_video_container c = some VideoContainer.MP4)
  ∧ find_video_container "theora" = some VideoContainer.OGG
  ∧ (∀ c, c ∉ ["av1", "vp8", "vp9", "h264", "hevc", "mpeg4", "mpeg2video", "theora"] →
      find_video_container c = none)
  ∧ (∀ (media_file media_stem : String) (ffprobe : FFprobeResult) (outputdir : String)
      ( url_prefix : String) (preferred_language : Option String)
      (FF2CT LANGUAGES : String → Option String) (video audio : Track)
      (vrest : List Track) (q : Nat) (out : RemuxOutput),
      tracks_of_kind TrackType.Video ffprobe.tracks = video :: vrest →
      find_video_container video.codec = none →
      select_audio none preferred_language (tracks_of_kind TrackType.Audio ffprobe.tracks)
        = some audio →
      video.scanline_count = some q →
      remux media_file media_stem ffprobe outputdir url_prefix preferred_language
          FF2CT LANGUAGES = some out →
      out.cytube.sources = [{ url := strcat url_prefix ["main.webm"],
                              content_type := "video/webm", quality := q,
                              bitrate := ffprobe.bitrate }]
        ∧ (outputdir ++ "/" ++ "main.webm") ∈ out.args) := by
  refine ⟨?_, ?_, by decide, ?_, ?_⟩
  · intro c hc
    simp only [List.mem_cons, List.not_mem_nil, or_false] at hc
    rcases hc with rfl | rfl | rfl
    · decide
    · decide
    · decide
  · intro c hc
    simp only [List.mem_cons, List.not_mem_nil, or_false] at hc
    rcases hc with rfl | rfl | rfl | rfl
    · decide
    · decide
    · decide
    · decide
  · intro c hc
    simp only [List.mem_cons, List.not_mem_nil, or_false, not_or] at hc
    obtain ⟨h1, h2, h3, h4, h5, h6, h7, h8⟩ := hc
    simp [find_video_container, h1, h2, h3, h4, h5, h6, h7, h8]
  · intro media_file media_stem ffprobe outputdir url_prefix preferred_language
      FF2CT LANGUAGES video audio vrest q out hv hvc hsel hq hrem
    have hv' : (tracks_of_kind TrackType.Video ffprobe.tracks).head? = some video := by
      rw [hv]
      rfl
    have hp := remux_primary_fallback outputdir url_prefix preferred_language FF2CT
      LANGUAGES ffprobe.bitrate (tracks_of_kind TrackType.Video ffprobe.tracks)
      (tracks_of_kind TrackType.Audio ffprobe.tracks) video audio q hv' hvc hsel hq
    have hr := remux_of_primary media_file media_stem ffprobe outputdir url_prefix
      preferred_language FF2CT LANGUAGES _ _ _ hp
    rw [hrem] at hr
    have hout := (Option.some.inj hr).symm
    subst hout
    constructor
    · rfl
    · simp

/-- C2: when the video codec resolves to a container, the command copies
the video stream, then copies the audio stream if its codec is in the
container's accepted set (adding `-strict experimental` exactly for FLAC
in MP4), and otherwise encodes with the container's preferred audio
encoder forced to 2 channels, writing `main.<extension>`. -/
theorem claim_C2_copy_vs_encode (media_file media_stem : String) (ffprobe : FFprobeResult)
    (outputdir : String) ( url_prefix : String) (preferred_language : Option String)
    (FF2CT LANGUAGES : String → Option String) (video audio : Track) (vrest : List Track)
    (vc : VideoContainer) (q : Nat) (out : RemuxOutput)
    (hv : tracks_of_kind TrackType.Video ffprobe.tracks = video :: vrest)
    (hvc : find_video_container video.codec = some vc)
    (hsel : select_audio (some vc) preferred_language
        (tracks_of_kind TrackType.Audio ffprobe.tracks) = some audio)
    (hq : video.scanline_count = some q)
    (hrem : remux media_file media_stem ffprobe outputdir url_prefix preferred_language
        FF2CT LANGUAGES = some out) :
    ∃ tail, out.args
      = ["-hide_banner", "-strict", "-2", "-i", media_file]
        ++ ["-map", "0:" ++ toString video.index, "-map", "0:" ++ toString audio.index]
        ++ ["-c:v", "copy", "-c:a"]
        ++ (if audio.codec ∈ vc.get_acceptable_audio_codecs then
              "copy" :: (if vc = VideoContainer.MP4 ∧ audio.codec = "flac" then
                ["-strict", "experimental"]
              else [])
            else [vc.preferred_audio_encoder, "-ac", "2"])
        ++ [outputdir ++ "/" ++ ("main." ++ vc.extension)] ++ tail := by
  have hv' : (tracks_of_kind TrackType.Video ffprobe.tracks).head? = some video := by
    rw [hv]
    rfl
  have hp := remux_primary_container outputdir url_prefix preferred_language FF2CT
    LANGUAGES ffprobe.bitrate (tracks_of_kind TrackType.Video ffprobe.tracks)
    (tracks_of_kind TrackType.Audio ffprobe.tracks) video audio vc q hv' hvc hsel hq
  have hr := remux_of_primary media_file media_stem ffprobe outputdir url_prefix
    preferred_language FF2CT LANGUAGES _ _ _ hp
  rw [hrem] at hr
  obtain rfl := Option.some.inj hr
  refine ⟨(((tracks_of_kind TrackType.Audio ffprobe.tracks).map
        (secondary_audio_step outputdir url_prefix FF2CT LANGUAGES audio.index)).map
        Prod.fst).flatten
      ++ (((tracks_of_kind TrackType.Subtitle ffprobe.tracks).map
        (subtitle_step outputdir url_prefix LANGUAGES)).map Prod.fst).flatten, ?_⟩
  simp [List.append_assoc]

/-- C3: every emitted primary Source carries the first video track's
scanline count as `quality` and the probe's overall bitrate as
`bitrate`; and a primary pair whose video track lacks a scanline count
is fatal (the plan builder panics). -/
theorem claim_C3_source_quality_and_bitrate (media_file media_stem : String)
    (ffprobe : FFprobeResult) (outputdir : String) ( url_prefix : String)
    (preferred_language : Option String) (FF2CT LANGUAGES : String → Option String) :
    (∀ out s, remux media_file media_stem ffprobe outputdir url_prefix preferred_language
        FF2CT LANGUAGES = some out → s ∈ out.cytube.sources →
      ∃ video vrest, tracks_of_kind TrackType.Video ffprobe.tracks = video :: vrest
        ∧ video.scanline_count = some s.quality ∧ s.bitrate = ffprobe.bitrate)
  ∧ (∀ video vrest audio,
      tracks_of_kind TrackType.Video ffprobe.tracks = video :: vrest →
      select_audio (find_video_container video.codec) preferred_language
        (tracks_of_kind TrackType.Audio ffprobe.tracks) = some audio →
      video.scanline_count = none →
      remux media_file media_stem ffprobe outputdir url_prefix preferred_language
        FF2CT LANGUAGES = none) := by
  constructor
  · intro out s hrem hs
    cases hvl : tracks_of_kind TrackType.Video ffprobe.tracks with
    | nil =>
      have hp := remux_primary_no_video outputdir url_prefix preferred_language FF2CT
        LANGUAGES ffprobe.bitrate (tracks_of_kind TrackType.Video ffprobe.tracks)
        (tracks_of_kind TrackType.Audio ffprobe.tracks) (by rw [hvl]; rfl)
      have hr := remux_of_primary media_file media_stem ffprobe outputdir url_prefix
        preferred_language FF2CT LANGUAGES _ _ _ hp
      rw [hrem] at hr
      obtain rfl := Option.some.inj hr
      simp at hs
    | cons video vrest =>
      have hv' : (tracks_of_kind TrackType.Video ffprobe.tracks).head? = some video := by
        rw [hvl]
        rfl
      cases hsel : select_audio (find_video_container video.codec) preferred_language
          (tracks_of_kind TrackType.Audio ffprobe.tracks) with
      | none =>
        have hp := remux_primary_no_audio outputdir url_prefix preferred_language FF2CT
          LANGUAGES ffprobe.bitrate (tracks_of_kind TrackType.Video ffprobe.tracks)
          (tracks_of_kind TrackType.Audio ffprobe.tracks) video hv' hsel
        have hr := remux_of_primary media_file media_stem ffprobe outputdir url_prefix
          preferred_language FF2CT LANGUAGES _ _ _ hp
        rw [hrem] at hr
        obtain rfl := Option.some.inj hr
        simp at hs
      | some audio =>
        cases hq : video.scanline_count with
        | none =>
          have hp := remux_primary_panic outputdir url_prefix preferred_language FF2CT
            LANGUAGES ffprobe.bitrate (tracks_of_kind TrackType.Video ffprobe.tracks)
            (tracks_of_kind TrackType.Audio ffprobe.tracks) video audio hv' hsel hq
          have hnone := remux_none_of_primary_none media_file media_stem ffprobe outputdir
            url_prefix preferred_language FF2CT LANGUAGES hp
          rw [hrem] at hnone
          cases hnone
        | some q =>
          cases hvc : find_video_container video.codec with
          | some vc =>
            rw [hvc] at hsel
            have hp := remux_primary_container outputdir url_prefix preferred_language
              FF2CT LANGUAGES ffprobe.bitrate (tracks_of_kind TrackType.Video ffprobe.tracks)
              (tracks_of_kind TrackType.Audio ffprobe.tracks) video audio vc q hv' hvc hsel hq
            have hr := remux_of_primary media_file media_stem ffprobe outputdir url_prefix
              preferred_language FF2CT LANGUAGES _ _ _ hp
            rw [hrem] at hr
            obtain rfl := Option.some.inj hr
            simp only [List.mem_singleton] at hs
            subst hs
            exact ⟨video, vrest, rfl, hq, rfl⟩
          | none =>
            rw [hvc] at hsel
            have hp := remux_primary_fallback outputdir url_prefix preferred_language
              FF2CT LANGUAGES ffprobe.bitrate (tracks_of_kind TrackType.Video ffprobe.tracks)
              (tracks_of_kind TrackType.Audio ffprobe.tracks) video audio q hv' hvc hsel hq
            have hr := remux_of_primary media_file media_stem ffprobe outputdir url_prefix
              preferred_language FF2CT LANGUAGES _ _ _ hp
            rw [hrem] at hr
            obtain rfl := Option.some.inj hr
            simp only [List.mem_singleton] at hs
            subst hs
            exact ⟨video, vrest, rfl, hq, rfl⟩
  · intro video vrest audio hvl hsel hq
    have hv' : (tracks_of_kind TrackType.Video ffprobe.tracks).head? = some video := by
      rw [hvl]
      rfl
    have hp := remux_primary_panic outputdir url_prefix preferred_language FF2CT
      LANGUAGES ffprobe.bitrate (tracks_of_kind TrackType.Video ffprobe.tracks)
      (tracks_of_kind TrackType.Audio ffprobe.tracks) video audio hv' hsel hq
    exact remux_none_of_primary_none media_file media_stem ffprobe outputdir url_prefix
      preferred_language FF2CT LANGUAGES hp

/-- C10: with no video track, or with a video track but no audio track
at all, the plan emits no Source and no secondary-audio output — the
manifest's sources and audioTracks are empty and the command consists of
exactly the base arguments followed by the subtitle conversions, so it
holds no primary or secondary-audio operation — while non-bitmap
subtitle tracks are still converted and listed. -/
theorem claim_C10_no_video_or_no_audio (media_file media_stem : String)
    (ffprobe : FFprobeResult) (outputdir : String) ( url_prefix : String)
    (preferred_language : Option String) (FF2CT LANGUAGES : String → Option String)
    (hva : tracks_of_kind TrackType.Video ffprobe.tracks = []
      ∨ tracks_of_kind TrackType.Audio ffprobe.tracks = []) :
    ∃ out, remux media_file media_stem ffprobe outputdir url_prefix preferred_language
        FF2CT LANGUAGES = some out
      ∧ out.cytube.sources = []
      ∧ out.cytube.audio_tracks = []
      ∧ out.cytube.text_tracks = ((tracks_of_kind TrackType.Subtitle ffprobe.tracks).filter
          (fun t => decide (t.codec ∉ BITMAP_SUBTITLE_CODECS))).map
          (fun sub_track =>
            { url := strcat url_prefix ["sub_" ++ toString sub_track.index ++ "_"
                ++ (match sub_track.language with
                    | some x => x
                    | none => "unknown") ++ ".vtt"],
              name := match sub_track.language with
                | some x => build_language_string LANGUAGES x sub_track.title
                | none => sub_track.title.getD "Unknown",
              content_type := "text/vtt" })
      ∧ out.args = ["-hide_banner", "-strict", "-2", "-i", media_file]
          ++ (((tracks_of_kind TrackType.Subtitle ffprobe.tracks).filter
              (fun t => decide (t.codec ∉ BITMAP_SUBTITLE_CODECS))).map
              (fun sub_track =>
                ["-map", "0:" ++ toString sub_track.index,
                 outputdir ++ "/" ++ ("sub_" ++ toString sub_track.index ++ "_"
                   ++ (match sub_track.language with
                       | some x => x
                       | none => "unknown") ++ ".vtt")])).flatten := by
  have hp : remux_primary outputdir url_prefix preferred_language FF2CT LANGUAGES
      ffprobe.bitrate (tracks_of_kind TrackType.Video ffprobe.tracks)
      (tracks_of_kind TrackType.Audio ffprobe.tracks) = some ([], [], []) := by
    rcases hva with hv | ha
    · exact remux_primary_no_video outputdir url_prefix preferred_language FF2CT
        LANGUAGES ffprobe.bitrate _ _ (by rw [hv]; rfl)
    · cases hvl : tracks_of_kind TrackType.Video ffprobe.tracks with
      | nil =>
        exact remux_primary_no_video outputdir url_prefix preferred_language FF2CT
          LANGUAGES ffprobe.bitrate _ _ rfl
      | cons video vrest =>
        refine remux_primary_no_audio outputdir url_prefix preferred_language FF2CT
          LANGUAGES ffprobe.bitrate _ _ video rfl ?_
        rw [ha]
        exact select_audio_nil _ _
  have hr := remux_of_primary media_file media_stem ffprobe outputdir url_prefix
    preferred_language FF2CT LANGUAGES _ _ _ hp
  refine ⟨_, hr, rfl, rfl, subtitle_tracks_eq outputdir url_prefix LANGUAGES _, ?_⟩
  show ["-hide_banner", "-strict", "-2", "-i", media_file] ++ []
      ++ (((tracks_of_kind TrackType.Subtitle ffprobe.tracks).map
        (subtitle_step outputdir url_prefix LANGUAGES)).map Prod.fst).flatten = _
  rw [subtitle_args_eq, List.append_nil]

/-- C5: the manifest's textTracks are exactly the non-bitmap subtitle
tracks (so a subtitle track whose codec is one of the four bitmap
subtitle codecs never appears there), and the subtitle portion of the
command likewise covers only the non-bitmap subtitle tracks. -/
theorem claim_C5_bitmap_subtitles_excluded (media_file media_stem : String)
    (ffprobe : FFprobeResult) (outputdir : String) ( url_prefix : String)
    (preferred_language : Option String) (FF2CT LANGUAGES : String → Option String)
    (out : RemuxOutput)
    (hrem : remux media_file media_stem ffprobe outputdir url_prefix preferred_language
        FF2CT LANGUAGES = some out) :
    out.cytube.text_tracks = ((tracks_of_kind TrackType.Subtitle ffprobe.tracks).filter
        (fun t => decide (t.codec ∉ BITMAP_SUBTITLE_CODECS))).map
        (fun sub_track =>
          { url := strcat url_prefix ["sub_" ++ toString sub_track.index ++ "_"
              ++ (match sub_track.language with
                  | some x => x
                  | none => "unknown") ++ ".vtt"],
            name := match sub_track.language with
              | some x => build_language_string LANGUAGES x sub_track.title
              | none => sub_track.title.getD "Unknown",
            content_type := "text/vtt" })
  ∧ ∃ p, out.args = p ++ (((tracks_of_kind TrackType.Subtitle ffprobe.tracks).filter
        (fun t => decide (t.codec ∉ BITMAP_SUBTITLE_CODECS))).map
        (fun sub_track =>
          ["-map", "0:" ++ toString sub_track.index,
           outputdir ++ "/" ++ ("sub_" ++ toString sub_track.index ++ "_"
             ++ (match sub_track.language with
                 | some x => x
                 | none => "unknown") ++ ".vtt")])).flatten := by
  cases hp : remux_primary outputdir url_prefix preferred_language FF2CT LANGUAGES
      ffprobe.bitrate (tracks_of_kind TrackType.Video ffprobe.tracks)
      (tracks_of_kind TrackType.Audio ffprobe.tracks) with
  | none =>
    have hnone := remux_none_of_primary_none media_file media_stem ffprobe outputdir
      url_prefix preferred_language FF2CT LANGUAGES hp
    rw [hrem] at hnone
    cases hnone
  | some triple =>
    obtain ⟨pargs, srcs, atracks⟩ := triple
    have hr := remux_of_primary media_file media_stem ffprobe outputdir url_prefix
      preferred_language FF2CT LANGUAGES _ _ _ hp
    rw [hrem] at hr
    obtain rfl := Option.some.inj hr
    constructor
    · exact subtitle_tracks_eq outputdir url_prefix LANGUAGES _
    · refine ⟨["-hide_banner", "-strict", "-2", "-i", media_file] ++ pargs, ?_⟩
      rw [subtitle_args_eq]

/-- C9: the language label builder resolves an unrecognized code to the
raw code and a recognized one to its table name, appending a present
title as " (<title>)"; and every manifest text track's name is built
from the subtitle track's language via the label builder when present,
else its title, else "Unknown". -/
theorem claim_C9_language_label_builder :
    (∀ (LANGUAGES : String → Option String) (code : String),
      LANGUAGES code = none →
        build_language_string LANGUAGES code none = code
      ∧ ∀ t, build_language_string LANGUAGES code (some t) = code ++ " (" ++ t ++ ")")
  ∧ (∀ (LANGUAGES : String → Option String) (code name : String),
      LANGUAGES code = some name →
        build_language_string LANGUAGES code none = name
      ∧ ∀ t, build_language_string LANGUAGES code (some t) = name ++ " (" ++ t ++ ")")
  ∧ (∀ (media_file media_stem : String) (ffprobe : FFprobeResult) (outputdir : String)
      ( url_prefix : String) (preferred_language : Option String)
      (FF2CT LANGUAGES : String → Option String) (out : RemuxOutput),
      remux media_file media_stem ffprobe outputdir url_prefix preferred_language
          FF2CT LANGUAGES = some out →
      ∀ tt, tt ∈ out.cytube.text_tracks →
        ∃ t, t ∈ ffprobe.tracks ∧ t.kind = TrackType.Subtitle
          ∧ tt.name = (match t.language with
              | some x => build_language_string LANGUAGES x t.title
              | none => t.title.getD "Unknown")) := by
  refine ⟨?_, ?_, ?_⟩
  · intro LANGUAGES code h
    exact ⟨by simp [build_language_string, h], fun t => by simp [build_language_string, h]⟩
  · intro LANGUAGES code name h
    exact ⟨by simp [build_language_string, h], fun t => by simp [build_language_string, h]⟩
  · intro media_file media_stem ffprobe outputdir url_prefix preferred_language
      FF2CT LANGUAGES out hrem tt htt
    cases hp : remux_primary outputdir url_prefix preferred_language FF2CT LANGUAGES
        ffprobe.bitrate (tracks_of_kind TrackType.Video ffprobe.tracks)
        (tracks_of_kind TrackType.Audio ffprobe.tracks) with
    | none =>
      have hnone := remux_none_of_primary_none media_file media_stem ffprobe outputdir
        url_prefix preferred_language FF2CT LANGUAGES hp
      rw [hrem] at hnone
      cases hnone
    | some triple =>
      obtain ⟨pargs, srcs, atracks⟩ := triple
      have hr := remux_of_primary media_file media_stem ffprobe outputdir url_prefix
        preferred_language FF2CT LANGUAGES _ _ _ hp
      rw [hrem] at hr
      obtain rfl := Option.some.inj hr
      have htt' : tt ∈ (((tracks_of_kind TrackType.Subtitle ffprobe.tracks).map
          (subtitle_step outputdir url_prefix LANGUAGES)).map Prod.snd).flatten := htt
      rw [subtitle_tracks_eq] at htt'
      obtain ⟨t, htmem, rfl⟩ := List.mem_map.mp htt'
      have ht' := List.mem_filter.mp htmem
      have htk := mem_tracks_of_kind.mp ht'.1
      exact ⟨t, htk.1, htk.2, rfl⟩

lemma isInfix_embed {α : Type} {x m : List α} (pre post : List α) (h : x <:+: m) :
    x <:+: pre ++ m ++ post := by
  obtain ⟨s, u, hsu⟩ := h
  refine ⟨pre ++ s, u ++ post, ?_⟩
  rw [← hsu]
  simp [List.append_assoc]

/-- Every manifest `AudioTrack` emitted by the secondary-audio loop has
a url of the form prefix ++ filename with the same filename reaching the
loop's argument list as the destination path. -/
lemma secondary_entry_url (outputdir : String) ( url_prefix : String)
    (FF2CT LANGUAGES : String → Option String) (pi : Nat) (l : List Track)
    (a : CTAudioTrack)
    (ha : a ∈ ((l.map (secondary_audio_step outputdir url_prefix FF2CT LANGUAGES
        pi)).map Prod.snd).flatten) :
    ∃ filename, a.url = strcat url_prefix [filename]
      ∧ (outputdir ++ "/" ++ filename) ∈ ((l.map (secondary_audio_step outputdir
          url_prefix FF2CT LANGUAGES pi)).map Prod.fst).flatten := by
  rw [secondary_tracks_eq] at ha
  obtain ⟨t, htmem, hat⟩ := List.mem_filterMap.mp ha
  by_cases hpi : t.index = pi
  · rw [if_pos hpi] at hat
    cases hat
  · rw [if_neg hpi] at hat
    cases hfc : find_audio_container t.codec with
    | none =>
      rw [hfc] at hat
      cases hat
    | some c =>
      rw [hfc] at hat
      obtain rfl := Option.some.inj hat
      refine ⟨"audio_" ++ toString t.index ++ "_" ++ t.language.getD "unknown"
        ++ "." ++ c.extension, rfl, ?_⟩
      have hargs : (secondary_audio_step outputdir url_prefix FF2CT LANGUAGES pi t).1
          = ["-map", "0:" ++ toString t.index, "-c", "copy",
             outputdir ++ "/" ++ ("audio_" ++ toString t.index ++ "_"
               ++ t.language.getD "unknown" ++ "." ++ c.extension)] := by
        simp [secondary_audio_step, hpi, hfc]
      refine List.mem_flatten.mpr ⟨(secondary_audio_step outputdir url_prefix FF2CT
        LANGUAGES pi t).1, ?_, ?_⟩
      · exact List.mem_map.mpr ⟨secondary_audio_step outputdir url_prefix FF2CT
          LANGUAGES pi t, List.mem_map.mpr ⟨t, htmem, rfl⟩, rfl⟩
      · rw [hargs]
        simp

/-- Every manifest `TextTrack` emitted by the subtitle loop has a url of
the form prefix ++ filename with the same filename reaching the loop's
argument list as the destination path. -/
lemma subtitle_entry_url (outputdir : String) ( url_prefix : String)
    (LANGUAGES : String → Option String) (l : List Track) (tt : CTTextTrack)
    (htt : tt ∈ ((l.map (subtitle_step outputdir url_prefix LANGUAGES)).map
        Prod.snd).flatten) :
    ∃ filename, tt.url = strcat url_prefix [filename]
      ∧ (outputdir ++ "/" ++ filename) ∈ ((l.map (subtitle_step outputdir url_prefix
          LANGUAGES)).map Prod.fst).flatten := by
  rw [subtitle_tracks_eq] at htt
  obtain ⟨t, htmem, rfl⟩ := List.mem_map.mp htt
  refine ⟨"sub_" ++ toString t.index ++ "_" ++ (match t.language with
      | some x => x
      | none => "unknown") ++ ".vtt", rfl, ?_⟩
  rw [subtitle_args_eq]
  refine List.mem_flatten.mpr ⟨_, List.mem_map.mpr ⟨t, htmem, rfl⟩, ?_⟩
  simp

/-- C4: given the chosen primary audio track, the manifest's audioTracks
are exactly, in order, the audio tracks other than the chosen one whose
codec maps to an AudioContainer — each with url
`prefix ++ audio_<index>_<language-or-"unknown">.<extension>` — tracks
with no AudioContainer being silently dropped; and each emitted track
contributes a contiguous `-map <idx> -c copy <destination>` copy
operation to the command. -/
theorem claim_C4_secondary_audio_tracks (media_file media_stem : String)
    (ffprobe : FFprobeResult) (outputdir : String) ( url_prefix : String)
    (preferred_language : Option String) (FF2CT LANGUAGES : String → Option String)
    (video audio : Track) (vrest : List Track) (out : RemuxOutput)
    (hv : tracks_of_kind TrackType.Video ffprobe.tracks = video :: vrest)
    (hsel : select_audio (find_video_container video.codec) preferred_language
        (tracks_of_kind TrackType.Audio ffprobe.tracks) = some audio)
    (hrem : remux media_file media_stem ffprobe outputdir url_prefix preferred_language
        FF2CT LANGUAGES = some out) :
    out.cytube.audio_tracks = (tracks_of_kind TrackType.Audio ffprobe.tracks).filterMap
        (fun audio_track =>
          if audio_track.index = audio.index then none
          else (find_audio_container audio_track.codec).map (fun container =>
            { url := strcat url_prefix ["audio_" ++ toString audio_track.index ++ "_"
                ++ audio_track.language.getD "unknown" ++ "." ++ container.extension],
              label := build_language_string LANGUAGES
                (audio_track.language.getD "unknown") audio_track.title,
              language := (FF2CT (audio_track.language.getD "unknown")).getD
                (audio_track.language.getD "unknown"),
              content_type := container.mimetype }))
  ∧ (∀ audio_track, audio_track ∈ tracks_of_kind TrackType.Audio ffprobe.tracks →
      audio_track.index ≠ audio.index →
      ∀ container, find_audio_container audio_track.codec = some container →
      ["-map", "0:" ++ toString audio_track.index, "-c", "copy",
       outputdir ++ "/" ++ ("audio_" ++ toString audio_track.index ++ "_"
         ++ audio_track.language.getD "unknown" ++ "." ++ container.extension)]
        <:+: out.args) := by
  have hv' : (tracks_of_kind TrackType.Video ffprobe.tracks).head? = some video := by
    rw [hv]
    rfl
  cases hq : video.scanline_count with
  | none =>
    have hp := remux_primary_panic outputdir url_prefix preferred_language FF2CT
      LANGUAGES ffprobe.bitrate (tracks_of_kind TrackType.Video ffprobe.tracks)
      (tracks_of_kind TrackType.Audio ffprobe.tracks) video audio hv' hsel hq
    have hnone := remux_none_of_primary_none media_file media_stem ffprobe outputdir
      url_prefix preferred_language FF2CT LANGUAGES hp
    rw [hrem] at hnone
    cases hnone
  | some q =>
    have hops : ∀ audio_track, audio_track ∈ tracks_of_kind TrackType.Audio
          ffprobe.tracks →
        audio_track.index ≠ audio.index →
        ∀ container, find_audio_container audio_track.codec = some container →
        ["-map", "0:" ++ toString audio_track.index, "-c", "copy",
         outputdir ++ "/" ++ ("audio_" ++ toString audio_track.index ++ "_"
           ++ audio_track.language.getD "unknown" ++ "." ++ container.extension)]
          <:+: (((tracks_of_kind TrackType.Audio ffprobe.tracks).map
            (secondary_audio_step outputdir url_prefix FF2CT LANGUAGES
            audio.index)).map Prod.fst).flatten := by
      intro audio_track ht hne container hfc
      have h1 : (secondary_audio_step outputdir url_prefix FF2CT LANGUAGES audio.index
          audio_track).1
          = ["-map", "0:" ++ toString audio_track.index, "-c", "copy",
             outputdir ++ "/" ++ ("audio_" ++ toString audio_track.index ++ "_"
               ++ audio_track.language.getD "unknown" ++ "." ++ container.extension)] := by
        simp [secondary_audio_step, hne, hfc]
      rw [List.map_map]
      have h3 := flatten_map_infix (Prod.fst ∘ secondary_audio_step outputdir
        url_prefix FF2CT LANGUAGES audio.index) ht
      rwa [show (Prod.fst ∘ secondary_audio_step outputdir url_prefix FF2CT LANGUAGES
        audio.index) audio_track
        = ["-map", "0:" ++ toString audio_track.index, "-c", "copy",
           outputdir ++ "/" ++ ("audio_" ++ toString audio_track.index ++ "_"
             ++ audio_track.language.getD "unknown" ++ "." ++ container.extension)]
        from h1] at h3
    cases hvc : find_video_container video.codec with
    | some vc =>
      rw [hvc] at hsel
      have hp := remux_primary_container outputdir url_prefix preferred_language
        FF2CT LANGUAGES ffprobe.bitrate (tracks_of_kind TrackType.Video ffprobe.tracks)
        (tracks_of_kind TrackType.Audio ffprobe.tracks) video audio vc q hv' hvc hsel hq
      have hr := remux_of_primary media_file media_stem ffprobe outputdir url_prefix
        preferred_language FF2CT LANGUAGES _ _ _ hp
      rw [hrem] at hr
      obtain rfl := Option.some.inj hr
      refine ⟨secondary_tracks_eq outputdir url_prefix FF2CT LANGUAGES audio.index _, ?_⟩
      intro audio_track ht hne container hfc
      refine (hops audio_track ht hne container hfc).trans ?_
      refine List.IsInfix.trans ⟨["-map", "0:" ++ toString video.index, "-map",
        "0:" ++ toString audio.index] ++ ["-c:v", "copy", "-c:a"]
        ++ (if audio.codec ∈ vc.get_acceptable_audio_codecs then
              "copy" :: (if vc = VideoContainer.MP4 ∧ audio.codec = "flac" then
                ["-strict", "experimental"]
              else [])
            else [vc.preferred_audio_encoder, "-ac", "2"])
        ++ [outputdir ++ "/" ++ ("main." ++ vc.extension)], [], by simp⟩
        ⟨["-hide_banner", "-strict", "-2", "-i", media_file],
         (((tracks_of_kind TrackType.Subtitle ffprobe.tracks).map
           (subtitle_step outputdir url_prefix LANGUAGES)).map Prod.fst).flatten, rfl⟩
    | none =>
      rw [hvc] at hsel
      have hp := remux_primary_fallback outputdir url_prefix preferred_language
        FF2CT LANGUAGES ffprobe.bitrate (tracks_of_kind TrackType.Video ffprobe.tracks)
        (tracks_of_kind TrackType.Audio ffprobe.tracks) video audio q hv' hvc hsel hq
      have hr := remux_of_primary media_file media_stem ffprobe outputdir url_prefix
        preferred_language FF2CT LANGUAGES _ _ _ hp
      rw [hrem] at hr
      obtain rfl := Option.some.inj hr
      refine ⟨secondary_tracks_eq outputdir url_prefix FF2CT LANGUAGES audio.index _, ?_⟩
      intro audio_track ht hne container hfc
      refine (hops audio_track ht hne container hfc).trans ?_
      refine List.IsInfix.trans ⟨["-map", "0:" ++ toString video.index, "-map",
        "0:" ++ toString audio.index] ++ ["-c:v", "libstvav1", "-c:a", "libopus",
        "-ac", "2", outputdir ++ "/" ++ "main.webm"], [], by simp⟩
        ⟨["-hide_banner", "-strict", "-2", "-i", media_file],
         (((tracks_of_kind TrackType.Subtitle ffprobe.tracks).map
           (subtitle_step outputdir url_prefix LANGUAGES)).map Prod.fst).flatten, rfl⟩

/-- C6: `strcat` concatenates verbatim, and every manifest entry's url
is the configured prefix concatenated with the exact file name used as
the corresponding operation's destination path in the command. -/
theorem claim_C6_manifest_urls (media_file media_stem : String) (ffprobe : FFprobeResult)
    (outputdir : String) ( url_prefix : String) (preferred_language : Option String)
    (FF2CT LANGUAGES : String → Option String) (out : RemuxOutput)
    (hrem : remux media_file media_stem ffprobe outputdir url_prefix preferred_language
        FF2CT LANGUAGES = some out) :
    (∀ a b : String, strcat a [b] = a ++ b)
  ∧ (∀ s, s ∈ out.cytube.sources → ∃ filename, s.url = strcat url_prefix [filename]
      ∧ (outputdir ++ "/" ++ filename) ∈ out.args)
  ∧ (∀ a, a ∈ out.cytube.audio_tracks → ∃ filename, a.url = strcat url_prefix [filename]
      ∧ (outputdir ++ "/" ++ filename) ∈ out.args)
  ∧ (∀ tt, tt ∈ out.cytube.text_tracks → ∃ filename, tt.url = strcat url_prefix [filename]
      ∧ (outputdir ++ "/" ++ filename) ∈ out.args) := by
  refine ⟨fun a b => rfl, ?_⟩
  cases hvl : tracks_of_kind TrackType.Video ffprobe.tracks with
  | nil =>
    have hp := remux_primary_no_video outputdir url_prefix preferred_language FF2CT
      LANGUAGES ffprobe.bitrate (tracks_of_kind TrackType.Video ffprobe.tracks)
      (tracks_of_kind TrackType.Audio ffprobe.tracks) (by rw [hvl]; rfl)
    have hr := remux_of_primary media_file media_stem ffprobe outputdir url_prefix
      preferred_language FF2CT LANGUAGES _ _ _ hp
    rw [hrem] at hr
    obtain rfl := Option.some.inj hr
    refine ⟨fun s hs => by simp at hs, fun a ha => by simp at ha, fun tt htt => ?_⟩
    obtain ⟨fn, hurl, hmem⟩ := subtitle_entry_url outputdir url_prefix LANGUAGES _ tt htt
    refine ⟨fn, hurl, ?_⟩
    simp only [List.mem_append]
    tauto
  | cons video vrest =>
    have hv' : (tracks_of_kind TrackType.Video ffprobe.tracks).head? = some video := by
      rw [hvl]
      rfl
    cases hsel : select_audio (find_video_container video.codec) preferred_language
        (tracks_of_kind TrackType.Audio ffprobe.tracks) with
    | none =>
      have hp := remux_primary_no_audio outputdir url_prefix preferred_language FF2CT
        LANGUAGES ffprobe.bitrate (tracks_of_kind TrackType.Video ffprobe.tracks)
        (tracks_of_kind TrackType.Audio ffprobe.tracks) video hv' hsel
      have hr := remux_of_primary media_file media_stem ffprobe outputdir url_prefix
        preferred_language FF2CT LANGUAGES _ _ _ hp
      rw [hrem] at hr
      obtain rfl := Option.some.inj hr
      refine ⟨fun s hs => by simp at hs, fun a ha => by simp at ha, fun tt htt => ?_⟩
      obtain ⟨fn, hurl, hmem⟩ := subtitle_entry_url outputdir url_prefix LANGUAGES _ tt htt
      refine ⟨fn, hurl, ?_⟩
      simp only [List.mem_append]
      tauto
    | some audio =>
      cases hq : video.scanline_count with
      | none =>
        have hp := remux_primary_panic outputdir url_prefix preferred_language FF2CT
          LANGUAGES ffprobe.bitrate (tracks_of_kind TrackType.Video ffprobe.tracks)
          (tracks_of_kind TrackType.Audio ffprobe.tracks) video audio hv' hsel hq
        have hnone := remux_none_of_primary_none media_file media_stem ffprobe outputdir
          url_prefix preferred_language FF2CT LANGUAGES hp
        rw [hrem] at hnone
        cases hnone
      | some q =>
        cases hvc : find_video_container video.codec with
        | some vc =>
          rw [hvc] at hsel
          have hp := remux_primary_container outputdir url_prefix preferred_language
            FF2CT LANGUAGES ffprobe.bitrate (tracks_of_kind TrackType.Video
            ffprobe.tracks) (tracks_of_kind TrackType.Audio ffprobe.tracks) video audio
            vc q hv' hvc hsel hq
          have hr := remux_of_primary media_file media_stem ffprobe outputdir url_prefix
            preferred_language FF2CT LANGUAGES _ _ _ hp
          rw [hrem] at hr
          obtain rfl := Option.some.inj hr
          refine ⟨fun s hs => ?_, fun a ha => ?_, fun tt htt => ?_⟩
          · simp only [List.mem_singleton] at hs
            subst hs
            refine ⟨"main." ++ vc.extension, rfl, ?_⟩
            simp
          · obtain ⟨fn, hurl, hmem⟩ := secondary_entry_url outputdir url_prefix FF2CT
              LANGUAGES audio.index _ a ha
            refine ⟨fn, hurl, ?_⟩
            simp only [List.mem_append]
            tauto
          · obtain ⟨fn, hurl, hmem⟩ := subtitle_entry_url outputdir url_prefix
              LANGUAGES _ tt htt
            refine ⟨fn, hurl, ?_⟩
            simp only [List.mem_append]
            tauto
        | none =>
          rw [hvc] at hsel
          have hp := remux_primary_fallback outputdir url_prefix preferred_language
            FF2CT LANGUAGES ffprobe.bitrate (tracks_of_kind TrackType.Video
            ffprobe.tracks) (tracks_of_kind TrackType.Audio ffprobe.tracks) video audio
            q hv' hvc hsel hq
          have hr := remux_of_primary media_file media_stem ffprobe outputdir url_prefix
            preferred_language FF2CT LANGUAGES _ _ _ hp
          rw [hrem] at hr
          obtain rfl := Option.some.inj hr
          refine ⟨fun s hs => ?_, fun a ha => ?_, fun tt htt => ?_⟩
          · simp only [List.mem_singleton] at hs
            subst hs
            refine ⟨"main.webm", rfl, ?_⟩
            simp
          · obtain ⟨fn, hurl, hmem⟩ := secondary_entry_url outputdir url_prefix FF2CT
              LANGUAGES audio.index _ a ha
            refine ⟨fn, hurl, ?_⟩
            simp only [List.mem_append]
            tauto
          · obtain ⟨fn, hurl, hmem⟩ := subtitle_entry_url outputdir url_prefix
              LANGUAGES _ tt htt
            refine ⟨fn, hurl, ?_⟩
            simp only [List.mem_append]
            tauto

/-- Token processing decomposes over list concatenation: a skip or an
error in the first part short-circuits, otherwise the second part
continues from the accumulated state. -/
lemma process_stream_tokens_append (line : String) (l1 l2 : List String) (acc : StreamAcc) :
    process_stream_tokens line (l1 ++ l2) acc
      = match process_stream_tokens line l1 acc with
        | Except.ok (some a) => process_stream_tokens line l2 a
        | Except.ok none => Except.ok none
        | Except.error e => Except.error e := by
  induction l1 generalizing acc with
  | nil => simp [process_stream_tokens]
  | cons tok rest ih =>
    simp only [List.cons_append, process_stream_tokens]
    cases split_once tok '=' with
    | none => rfl
    | some kv =>
      obtain ⟨k, v⟩ := kv
      by_cases h1 : k = "codec_type"
      · simp only [if_pos h1]
        cases parse_track_type v with
        | some tt => exact ih _
        | none => rfl
      · simp only [if_neg h1]
        by_cases h2 : k = "index"
        · simp only [if_pos h2]
          cases parse_u16 v with
          | some n => exact ih _
          | none => rfl
        · simp only [if_neg h2]
          by_cases h3 : k = "codec_name"
          · simp only [if_pos h3]
            exact ih _
          · simp only [if_neg h3]
            by_cases h4 : k = "coded_height"
            · simp only [if_pos h4]
              cases parse_u16 v with
              | some n => exact ih _
              | none => rfl
            · simp only [if_neg h4]
              by_cases h5 : k = "tag:language"
              · simp only [if_pos h5]
                exact ih _
              · simp only [if_neg h5]
                by_cases h6 : k = "tag:title"
                · simp only [if_pos h6]
                  exact ih _
                · simp only [if_neg h6]
                  exact ih _

/-- A value that fails the case-insensitive track-type parse also fails
the parser's exact match. -/
lemma parse_track_type_none_of_ci_none (v : String)
    (h : parse_track_type_ci v = none) : parse_track_type v = none := by
  cases hp : parse_track_type v with
  | none => rfl
  | some t =>
    unfold parse_track_type at hp
    split_ifs at hp with h1 h2 h3
    · subst h1
      cases h.symm.trans (show parse_track_type_ci "video" = some TrackType.Video from rfl)
    · subst h2
      cases h.symm.trans (show parse_track_type_ci "audio" = some TrackType.Audio from rfl)
    · subst h3
      cases h.symm.trans (show parse_track_type_ci "subtitle" = some TrackType.Subtitle
        from rfl)

/-- C8 (amended): a stream line's tokens are processed left to right; if
a `codec_type` token whose value does not parse (even case-insensitively)
is reached with all earlier tokens well-formed, the whole line is
skipped, producing no track and no error; if instead every token is
processed without such a skip, a missing `index` is a fatal parse error
naming the field and the line, and so are a missing `codec_type` and a
missing `codec_name`, checked in that order. -/
theorem claim_C8_stream_line_errors (line : String) (params pre post : List String)
    (tok v : String) (acc : StreamAcc) :
    (params = pre ++ tok :: post →
      split_once tok '=' = some ("codec_type", v) →
      parse_track_type_ci v = none →
      process_stream_tokens line pre init_acc = Except.ok (some acc) →
      process_stream line params = Except.ok none)
  ∧ (process_stream_tokens line params init_acc = Except.ok (some acc) →
      (acc.index = none →
        process_stream line params
          = Except.error (ParseErr.missingField "no index" line))
    ∧ (∀ i, acc.index = some i → acc.kind = none →
        process_stream line params
          = Except.error (ParseErr.missingField "no codec_type" line))
    ∧ (∀ i k, acc.index = some i → acc.kind = some k → acc.codec = none →
        process_stream line params
          = Except.error (ParseErr.missingField "no codec_name" line))) := by
  constructor
  · intro hparams hsp hci hpre
    subst hparams
    have htok : process_stream_tokens line (pre ++ tok :: post) init_acc
        = Except.ok none := by
      rw [process_stream_tokens_append, hpre]
      show process_stream_tokens line (tok :: post) acc = Except.ok none
      simp only [process_stream_tokens, hsp, if_true]
      rw [parse_track_type_none_of_ci_none v hci]
    simp [process_stream, htok]
  · intro hdone
    refine ⟨?_, ?_, ?_⟩
    · intro hidx
      simp [process_stream, hdone, finish_stream, hidx]
    · intro i hidx hkind
      simp [process_stream, hdone, finish_stream, hidx, hkind]
    · intro i k hidx hkind hcodec
      simp [process_stream, hdone, finish_stream, hidx, hkind, hcodec]

/-- C8 counterexample: on the stream line "stream|index=x|codec_type=data"
the codec_type value "data" parses to no track type, yet the line is not
skipped without an error as the claim states: the malformed index field,
processed first, raises the fatal parse error. -/
theorem claim_C8_counterexample :
    parse_ffmpeg_line "stream|index=x|codec_type=data"
      = ("stream", ["index=x", "codec_type=data"])
  ∧ parse_track_type_ci "data" = none
  ∧ process_stream "stream|index=x|codec_type=data" ["index=x", "codec_type=data"]
      ≠ Except.ok none
  ∧ process_stream "stream|index=x|codec_type=data" ["index=x", "codec_type=data"]
      = Except.error (ParseErr.malformedInt "index" "x"
          "stream|index=x|codec_type=data") := by
  refine ⟨rfl, rfl, ?_, rfl⟩
  intro h
  rw [show process_stream "stream|index=x|codec_type=data" ["index=x", "codec_type=data"]
      = Except.error (ParseErr.malformedInt "index" "x" "stream|index=x|codec_type=data")
    from rfl] at h
  exact Except.noConfusion h

/-- Witness for C8: a line whose bad codec_type is reached first is
skipped silently, and a well-formed line missing its index raises the
"no index" parse error. -/
theorem claim_C8_stream_line_errors_witness :
    process_stream "s1" ["codec_type=data", "codec_name=bin"] = Except.ok none
  ∧ process_stream "stream|codec_type=video" ["codec_type=video"]
      = Except.error (ParseErr.missingField "no index" "stream|codec_type=video") :=
  ⟨(claim_C8_stream_line_errors "s1" ["codec_type=data", "codec_name=bin"] []
      ["codec_name=bin"] "codec_type=data" "data" init_acc).1 rfl rfl rfl rfl,
   ((claim_C8_stream_line_errors "stream|codec_type=video" ["codec_type=video"] [] []
      "" "" ⟨some TrackType.Video, none, none, none, none, none⟩).2 rfl).1 rfl⟩

/-- Witness for C2: h264 video with aac audio goes to MP4 with both
streams copied into main.mp4. -/
theorem claim_C2_copy_vs_encode_witness :
    ∃ out tail,
      remux "in.mkv" "in"
        ⟨[⟨0, TrackType.Video, "h264", some 1080, none, none⟩,
          ⟨1, TrackType.Audio, "aac", none, none, none⟩], some "t", 0.0, 800⟩
        "out" "u/" none (fun _ => none) (fun _ => none) = some out
      ∧ out.args = ["-hide_banner", "-strict", "-2", "-i", "in.mkv"]
          ++ ["-map", "0:0", "-map", "0:1"] ++ ["-c:v", "copy", "-c:a"] ++ ["copy"]
          ++ ["out" ++ "/" ++ "main.mp4"] ++ tail := by
  obtain ⟨tail, ht⟩ := claim_C2_copy_vs_encode "in.mkv" "in"
    ⟨[⟨0, TrackType.Video, "h264", some 1080, none, none⟩,
      ⟨1, TrackType.Audio, "aac", none, none, none⟩], some "t", 0.0, 800⟩
    "out" "u/" none (fun _ => none) (fun _ => none)
    ⟨0, TrackType.Video, "h264", some 1080, none, none⟩
    ⟨1, TrackType.Audio, "aac", none, none, none⟩ [] VideoContainer.MP4 1080 _
    rfl rfl rfl rfl rfl
  exact ⟨_, tail, rfl, ht⟩

/-- Witness for C3: a copied h264 source carries quality 1080 and the
probe bitrate 800; a primary video track without a coded height makes
the plan builder fail. -/
theorem claim_C3_source_quality_and_bitrate_witness :
    (∃ video vrest, tracks_of_kind TrackType.Video
        [⟨0, TrackType.Video, "h264", some 1080, none, none⟩,
         ⟨1, TrackType.Audio, "aac", none, none, none⟩] = video :: vrest
      ∧ video.scanline_count = some 1080 ∧ (800 : Nat) = 800)
  ∧ remux "p.mkv" "p"
      ⟨[⟨0, TrackType.Video, "h264", none, none, none⟩,
        ⟨1, TrackType.Audio, "aac", none, none, none⟩], none, 0.0, 7⟩
      "out" "u/" none (fun _ => none) (fun _ => none) = none :=
  ⟨(claim_C3_source_quality_and_bitrate "in.mkv" "in"
      ⟨[⟨0, TrackType.Video, "h264", some 1080, none, none⟩,
        ⟨1, TrackType.Audio, "aac", none, none, none⟩], some "t", 0.0, 800⟩
      "out" "u/" none (fun _ => none) (fun _ => none)).1 _
      ⟨strcat "u/" ["main.mp4"], "video/mp4", 1080, 800⟩ rfl (by decide),
   (claim_C3_source_quality_and_bitrate "p.mkv" "p"
      ⟨[⟨0, TrackType.Video, "h264", none, none, none⟩,
        ⟨1, TrackType.Audio, "aac", none, none, none⟩], none, 0.0, 7⟩
      "out" "u/" none (fun _ => none) (fun _ => none)).2
      ⟨0, TrackType.Video, "h264", none, none, none⟩ []
      ⟨1, TrackType.Audio, "aac", none, none, none⟩ rfl rfl rfl⟩

/-- Witness for C4: with aac chosen as primary, the mp3 track is copied
into audio_2_unknown.m4a and listed, while the dts track is silently
dropped. -/
theorem claim_C4_secondary_audio_tracks_witness :
    ∃ out,
      remux "m.mkv" "m"
        ⟨[⟨0, TrackType.Video, "h264", some 720, none, none⟩,
          ⟨1, TrackType.Audio, "aac", none, none, none⟩,
          ⟨2, TrackType.Audio, "mp3", none, none, none⟩,
          ⟨3, TrackType.Audio, "dts", none, none, none⟩], none, 0.0, 9⟩
        "out" "u/" none (fun _ => none) (fun _ => none) = some out
      ∧ out.cytube.audio_tracks
          = [⟨strcat "u/" ["audio_2_unknown.m4a"], "unknown", "unknown", "audio/mp4"⟩]
      ∧ ["-map", "0:2", "-c", "copy", "out" ++ "/" ++ "audio_2_unknown.m4a"]
          <:+: out.args := by
  obtain ⟨h1, h2⟩ := claim_C4_secondary_audio_tracks "m.mkv" "m"
    ⟨[⟨0, TrackType.Video, "h264", some 720, none, none⟩,
      ⟨1, TrackType.Audio, "aac", none, none, none⟩,
      ⟨2, TrackType.Audio, "mp3", none, none, none⟩,
      ⟨3, TrackType.Audio, "dts", none, none, none⟩], none, 0.0, 9⟩
    "out" "u/" none (fun _ => none) (fun _ => none)
    ⟨0, TrackType.Video, "h264", some 720, none, none⟩
    ⟨1, TrackType.Audio, "aac", none, none, none⟩ [] _ rfl rfl rfl
  exact ⟨_, rfl, h1,
    h2 ⟨2, TrackType.Audio, "mp3", none, none, none⟩ (by simp [tracks_of_kind])
      (by simp) AudioContainer.PseudoM4A rfl⟩

/-- Witness for C5: a dvd_subtitle track yields no text track or plan
entry while a subrip track is converted. -/
theorem claim_C5_bitmap_subtitles_excluded_witness :
    ∃ out,
      remux "s.mkv" "s"
        ⟨[⟨2, TrackType.Subtitle, "dvd_subtitle", none, none, none⟩,
          ⟨3, TrackType.Subtitle, "subrip", none, none, none⟩], none, 0.0, 1⟩
        "out" "u/" none (fun _ => none) (fun _ => none) = some out
      ∧ out.cytube.text_tracks = [⟨strcat "u/" ["sub_3_unknown.vtt"], "Unknown", "text/vtt"⟩]
      ∧ ∃ p, out.args = p ++ ["-map", "0:3", "out" ++ "/" ++ "sub_3_unknown.vtt"] := by
  obtain ⟨h1, p, hp⟩ := claim_C5_bitmap_subtitles_excluded "s.mkv" "s"
    ⟨[⟨2, TrackType.Subtitle, "dvd_subtitle", none, none, none⟩,
      ⟨3, TrackType.Subtitle, "subrip", none, none, none⟩], none, 0.0, 1⟩
    "out" "u/" none (fun _ => none) (fun _ => none) _ rfl
  exact ⟨_, rfl, h1, p, hp⟩

/-- Witness for C6: on a copied h264/aac input every manifest url is the
prefix plus the destination file name found in the command. -/
theorem claim_C6_manifest_urls_witness :
    ∃ out,
      remux "in.mkv" "in"
        ⟨[⟨0, TrackType.Video, "h264", some 1080, none, none⟩,
          ⟨1, TrackType.Audio, "aac", none, none, none⟩], some "t", 0.0, 800⟩
        "out" "u/" none (fun _ => none) (fun _ => none) = some out
      ∧ strcat "a" ["b"] = "a" ++ "b"
      ∧ ∃ filename, (⟨strcat "u/" ["main.mp4"], "video/mp4", 1080, 800⟩ : Source).url
          = strcat "u/" [filename] ∧ ("out" ++ "/" ++ filename) ∈ out.args := by
  have h := claim_C6_manifest_urls "in.mkv" "in"
    ⟨[⟨0, TrackType.Video, "h264", some 1080, none, none⟩,
      ⟨1, TrackType.Audio, "aac", none, none, none⟩], some "t", 0.0, 800⟩
    "out" "u/" none (fun _ => none) (fun _ => none) _ rfl
  exact ⟨_, rfl, h.1 "a" "b",
    h.2.1 ⟨strcat "u/" ["main.mp4"], "video/mp4", 1080, 800⟩ (by decide)⟩

/-- Witness for C7: av1 maps to WEBM, and an unsupported wmv3 video
falls back to the re-encode with destination main.webm and MIME
video/webm. -/
theorem claim_C7_container_table_and_fallback_witness :
    find_video_container "av1" = some VideoContainer.WEBM
  ∧ ∃ out,
      remux "a.wmv" "a"
        ⟨[⟨0, TrackType.Video, "wmv3", some 480, none, none⟩,
          ⟨1, TrackType.Audio, "mp3", none, none, none⟩], none, 0.0, 5⟩
        "out" "u/" none (fun _ => none) (fun _ => none) = some out
      ∧ out.cytube.sources = [{ url := strcat "u/" ["main.webm"],
                                content_type := "video/webm", quality := 480,
                                bitrate := 5 }]
      ∧ ("out" ++ "/" ++ "main.webm") ∈ out.args := by
  have h := claim_C7_container_table_and_fallback
  obtain ⟨hs, hm⟩ := h.2.2.2.2 "a.wmv" "a"
    ⟨[⟨0, TrackType.Video, "wmv3", some 480, none, none⟩,
      ⟨1, TrackType.Audio, "mp3", none, none, none⟩], none, 0.0, 5⟩
    "out" "u/" none (fun _ => none) (fun _ => none)
    ⟨0, TrackType.Video, "wmv3", some 480, none, none⟩
    ⟨1, TrackType.Audio, "mp3", none, none, none⟩ [] 480 _ rfl rfl rfl rfl rfl
  exact ⟨h.1 "av1" (by simp), _, rfl, hs, hm⟩

/-- Witness for C9: an unrecognized code resolves to itself, a
recognized one to its table name with the title appended, and a manifest
text track's name comes from the label builder. -/
theorem claim_C9_language_label_builder_witness :
    build_language_string (fun _ => none) "zz" none = "zz"
  ∧ build_language_string (fun c => if c = "en" then some "English" else none) "en"
      (some "Signs") = "English" ++ " (" ++ "Signs" ++ ")"
  ∧ ∃ t, t ∈ [(⟨4, TrackType.Subtitle, "ass", none, some "en", some "Signs"⟩ : Track)]
      ∧ t.kind = TrackType.Subtitle
      ∧ (⟨strcat "u/" ["sub_4_en.vtt"], "English (Signs)", "text/vtt"⟩ : CTTextTrack).name
        = (match t.language with
           | some x => build_language_string
               (fun c => if c = "en" then some "English" else none) x t.title
           | none => t.title.getD "Unknown") := by
  have h := claim_C9_language_label_builder
  refine ⟨(h.1 (fun _ => none) "zz" rfl).1,
    (h.2.1 (fun c => if c = "en" then some "English" else none) "en" "English" rfl).2
      "Signs", ?_⟩
  exact h.2.2 "v.mkv" "v"
    ⟨[⟨4, TrackType.Subtitle, "ass", none, some "en", some "Signs"⟩], none, 0.0, 1⟩
    "out" "u/" none (fun _ => none)
    (fun c => if c = "en" then some "English" else none) _ rfl
    ⟨strcat "u/" ["sub_4_en.vtt"], "English (Signs)", "text/vtt"⟩ (by decide)

/-- Witness for C10: an audio-plus-subtitle file yields no sources and
no audio tracks, and its command is the base arguments plus exactly the
one subtitle conversion. -/
theorem claim_C10_no_video_or_no_audio_witness :
    ∃ out,
      remux "n.mka" "n"
        ⟨[⟨1, TrackType.Audio, "aac", none, none, none⟩,
          ⟨2, TrackType.Subtitle, "subrip", none, some "en", none⟩], none, 0.0, 3⟩
        "out" "u/" none (fun _ => none) (fun _ => none) = some out
      ∧ out.cytube.sources = []
      ∧ out.cytube.audio_tracks = []
      ∧ out.cytube.text_tracks = [⟨strcat "u/" ["sub_2_en.vtt"], "en", "text/vtt"⟩]
      ∧ out.args = ["-hide_banner", "-strict", "-2", "-i", "n.mka",
          "-map", "0:2", "out" ++ "/" ++ "sub_2_en.vtt"] := by
  obtain ⟨out, h1, h2, h3, h4, h5⟩ := claim_C10_no_video_or_no_audio "n.mka" "n"
    ⟨[⟨1, TrackType.Audio, "aac", none, none, none⟩,
      ⟨2, TrackType.Subtitle, "subrip", none, some "en", none⟩], none, 0.0, 3⟩
    "out" "u/" none (fun _ => none) (fun _ => none) (Or.inl rfl)
  exact ⟨out, h1, h2, h3, h4, h5⟩

end Cytrans
